import Mathlib

/-!
Verification of the tantivy_rust CSV-ingestion and query pipeline.

The repository has three source files:
  * src/main.rs            : schema creation, corpus discovery, batch ingestion
  * src/main_query_index.rs: query execution with an explicit limit parameter
  * src/main_index_query.rs: a second query variant with a hardcoded query

The Lean definitions below are a shallow embedding of those functions.
External collaborators (the tantivy engine, the csv reader, the glob crate,
the filesystem) are modelled by explicit parameters: the per-file row stream
is a list of raw rows (each either syntactically malformed or a list of
cells), commit outcomes are an oracle from the attempt number to success,
and console logging is recorded as a trace of events.  The writer handed to
index_data is modelled in its Ok state (the program only reaches ingestion
after a successful writer construction).  The i32 counters of the source are
modelled as Nat: no claim involves counts near 2^31.
-/

namespace TantivyRust

/-- Field capabilities: TEXT means tokenized and indexed, STORED means the
value is kept for retrieval (src/main.rs lines 24-57). -/
structure FieldOptions where
  indexed : Bool
  stored : Bool
deriving DecidableEq, Repr

def TEXT : FieldOptions := { indexed := true, stored := false }

def STORED : FieldOptions := { indexed := false, stored := true }

/-- The `|` combination of field options used in `create_schema`. -/
def orOpts (a b : FieldOptions) : FieldOptions :=
  { indexed := a.indexed || b.indexed, stored := a.stored || b.stored }

/-- A schema is the ordered list of declared fields, as built by
`Schema::builder()`; a field handle is its position in that list. -/
structure Schema where
  fields : List (String × FieldOptions)
deriving DecidableEq, Repr

/-- `Schema::get_field(name)`: the handle of the named field, if declared. -/
def Schema.get_field (s : Schema) (name : String) : Option Nat :=
  s.fields.findIdx? (fun p => p.1 == name)

/-- `create_schema` (src/main.rs lines 24-57): four text fields, in order
title (TEXT | STORED), url (STORED), body (TEXT | STORED),
state (TEXT | STORED). -/
def create_schema : Schema :=
  { fields :=
      [("title", orOpts TEXT STORED),
       ("url", STORED),
       ("body", orOpts TEXT STORED),
       ("state", orOpts TEXT STORED)] }

/-- A document is the list of (field handle, text value) pairs in the order
the source calls `doc.add_text`. -/
abbrev Document := List (Nat × String)

/-- `record.get(i)` of the csv crate: the i-th cell if present. -/
def record_get (record : List String) (i : Nat) : Option String :=
  record[i]?

/-- One field-population step of index_data (src/main.rs lines 150-183):
if the schema declares the field the cell at the source offset is read with
"NA" substituted for an absent cell, otherwise the value is "NA"; then
`doc.add_text(schema.get_field(name).unwrap(), value)` runs, whose unwrap
panics (None here) when the field is not declared. -/
def addField (schema : Schema) (record : List String) (name : String)
    (idx : Nat) (doc : Document) : Option Document :=
  let v := if (schema.get_field name).isSome
           then (record_get record idx).getD "NA"
           else "NA"
  match schema.get_field name with
  | some f => some (doc ++ [(f, v)])
  | none => none

/-- The per-record document construction of index_data (src/main.rs lines
143-183): title from offset 1, url from offset 2, body from offset 3,
state from offset 5.  The result is none exactly when one of the
`get_field(...).unwrap()` calls would panic. -/
def mapRow (schema : Schema) (record : List String) : Option Document := do
  let d1 ← addField schema record "title" 1 []
  let d2 ← addField schema record "url" 2 d1
  let d3 ← addField schema record "body" 3 d2
  addField schema record "state" 5 d3

/-- The document index_data builds from a parsed row under create_schema
(derived shorthand for the right-hand side of mapRow at that schema). -/
def docOf (cells : List String) : Document :=
  [(0, (record_get cells 1).getD "NA"), (1, (record_get cells 2).getD "NA"),
   (2, (record_get cells 3).getD "NA"), (3, (record_get cells 5).getD "NA")]

/-- One row delivered by `reader.records()` (src/main.rs line 131): either a
syntactically malformed row (the csv crate reports Err) or a parsed list of
cells. -/
inductive RawRow where
  | malformed
  | ok (cells : List String)

/-- The end-of-file exception percentage
`(exception_counter as f32 / counter as f32) * 100.0` (src/main.rs line 236),
modelled over exact rationals.  The source performs the division unguarded;
per IEEE-754 (f32) a zero divisor yields NaN when the numerator is zero and
positive infinity otherwise.  Rounding of f32 is abstracted. -/
inductive ExcReport where
  | percent (q : Rat)
  | nan
  | posInf
deriving DecidableEq, Repr

def exc_percentage (exc cnt : Nat) : ExcReport :=
  if cnt = 0 then (if exc = 0 then ExcReport.nan else ExcReport.posInf)
  else ExcReport.percent (((exc : Rat) / (cnt : Rat)) * 100)

/-- Observable actions of index_data, in program order: console logs are
events, a commit records the value of `counter` at the moment it runs. -/
inductive Event where
  | fileStart
  | openError
  | readError
  | addDoc (d : Document)
  | commitOkAt (n : Nat)
  | commitFailAt (n : Nat)
  | finalCommitOk
  | finalCommitFail
  | report (processed exceptions : Nat) (pct : ExcReport)
deriving DecidableEq, Repr

/-- The mutable state of one run of index_data.  `counter` and
`exception_counter` are the per-file locals of src/main.rs lines 126-127;
`pending` is the number of documents handed to the writer since the last
successful commit and `committed` the number made durable (the writer-side
state of the external engine); `attempts` numbers the commit attempts so the
outcome oracle can be consulted; `panicked` records that an `unwrap` on a
missing schema field fired; `trace` is the observable event log. -/
structure IngestState where
  counter : Nat
  exception_counter : Nat
  pending : Nat
  committed : Nat
  attempts : Nat
  panicked : Bool
  trace : List Event

def initState : IngestState :=
  { counter := 0, exception_counter := 0, pending := 0, committed := 0,
    attempts := 0, panicked := false, trace := [] }

/-- The body of the per-record loop of index_data (src/main.rs lines
131-221), for a writer in its Ok state.  A malformed row logs, bumps the
exception counter and continues.  A parsed row is mapped; the document is
handed to the writer, `counter` is incremented, and when
`counter % 1000 == 0` a commit is attempted: on success the pending batch
becomes durable, on failure the error is logged, the exception counter is
bumped and the loop continues (src/main.rs lines 199-220). -/
def stepRow (co : Nat → Bool) (schema : Schema) (s : IngestState)
    (r : RawRow) : IngestState :=
  match r with
  | RawRow.malformed =>
      { s with exception_counter := s.exception_counter + 1,
               trace := s.trace ++ [Event.readError] }
  | RawRow.ok cells =>
      match mapRow schema cells with
      | none => { s with panicked := true }
      | some doc =>
          let s1 := { s with counter := s.counter + 1,
                             pending := s.pending + 1,
                             trace := s.trace ++ [Event.addDoc doc] }
          if s1.counter % 1000 = 0 then
            if co s1.attempts then
              { s1 with pending := 0,
                        committed := s1.committed + s1.pending,
                        attempts := s1.attempts + 1,
                        trace := s1.trace ++ [Event.commitOkAt s1.counter] }
            else
              { s1 with exception_counter := s1.exception_counter + 1,
                        attempts := s1.attempts + 1,
                        trace := s1.trace ++ [Event.commitFailAt s1.counter] }
          else s1

/-- The record loop over a whole file; a panic aborts the traversal. -/
def processRows (co : Nat → Bool) (schema : Schema) :
    IngestState → List RawRow → IngestState
  | s, [] => s
  | s, r :: rest =>
      if s.panicked then s
      else processRows co schema (stepRow co schema s r) rest

/-- The end-of-file `writer.commit()?` (src/main.rs lines 225-227): on
success the pending batch becomes durable; on failure the error propagates
out of index_data (the Bool is false). -/
def finalCommit (co : Nat → Bool) (s : IngestState) : IngestState × Bool :=
  if co s.attempts then
    ({ s with pending := 0,
              committed := s.committed + s.pending,
              attempts := s.attempts + 1,
              trace := s.trace ++ [Event.finalCommitOk] }, true)
  else
    ({ s with attempts := s.attempts + 1,
              trace := s.trace ++ [Event.finalCommitFail] }, false)

/-- One discovered file: either `File::open` fails (src/main.rs lines
117-123, logged and skipped) or it opens and yields a row stream. -/
inductive FileInput where
  | openFail
  | csv (rows : List RawRow)

/-- Entering the per-file loop body: `counter` and `exception_counter` are
fresh locals (src/main.rs lines 126-127). -/
def startFile (s : IngestState) : IngestState :=
  { s with counter := 0, exception_counter := 0,
           trace := s.trace ++ [Event.fileStart] }

/-- Processing of one discovered file (src/main.rs lines 113-242): open,
iterate the rows, final commit, then print the per-file statistics with the
unguarded percentage.  The Bool is false when index_data would return Err
(final-commit failure) or panic (missing schema field). -/
def processFile (co : Nat → Bool) (schema : Schema) (s : IngestState)
    (f : FileInput) : IngestState × Bool :=
  match f with
  | FileInput.openFail => ({ s with trace := s.trace ++ [Event.openError] }, true)
  | FileInput.csv rows =>
      let s1 := processRows co schema (startFile s) rows
      if s1.panicked then (s1, false)
      else
        let p := finalCommit co s1
        if p.2 then
          ({ p.1 with trace := p.1.trace ++
              [Event.report p.1.counter p.1.exception_counter
                (exc_percentage p.1.exception_counter p.1.counter)] }, true)
        else p

/-- The file loop of index_data; a false flag (error or panic) stops the
run, as the `?` propagation does in the source. -/
def runFiles (co : Nat → Bool) (schema : Schema) :
    IngestState × Bool → List FileInput → IngestState × Bool
  | acc, [] => acc
  | acc, f :: rest =>
      if acc.2 then runFiles co schema (processFile co schema acc.1 f) rest
      else acc

/-- index_data (src/main.rs lines 99-245) over an already-discovered list of
files, with commit outcomes given by the oracle `co`. -/
def index_data (co : Nat → Bool) (schema : Schema)
    (files : List FileInput) : IngestState × Bool :=
  runFiles co schema (initState, true) files

/-! Trace observers used to state the claims. -/

/-- Rows that parse (`Ok(record)`). -/
def okCount : List RawRow → Nat
  | [] => 0
  | RawRow.ok _ :: r => okCount r + 1
  | RawRow.malformed :: r => okCount r

/-- Rows the csv reader rejects (`Err`). -/
def badCount : List RawRow → Nat
  | [] => 0
  | RawRow.malformed :: r => badCount r + 1
  | RawRow.ok _ :: r => badCount r

/-- Files that open successfully. -/
def csvCount : List FileInput → Nat
  | [] => 0
  | FileInput.csv _ :: r => csvCount r + 1
  | FileInput.openFail :: r => csvCount r

def isCheckpointCommit : Event → Bool
  | Event.commitOkAt _ => true
  | Event.commitFailAt _ => true
  | _ => false

/-- The checkpoint (mid-file) commit events of a trace, in order. -/
def checkpointCommits (tr : List Event) : List Event :=
  tr.filter isCheckpointCommit

/-- The checkpoint commit events a file with enough rows must produce:
attempts a, a+1, ..., a+n-1, the attempt numbered a happening when the
counter reaches 1000 * (a + 1), succeeding as the oracle dictates. -/
def commitEvs (co : Nat → Bool) : Nat → Nat → List Event
  | _, 0 => []
  | a, n + 1 =>
      (if co a then Event.commitOkAt (1000 * (a + 1))
       else Event.commitFailAt (1000 * (a + 1))) :: commitEvs co (a + 1) n

/-- How many of the commit attempts a, ..., a+n-1 the oracle fails. -/
def numFails (co : Nat → Bool) : Nat → Nat → Nat
  | _, 0 => 0
  | a, n + 1 => (if co a then 0 else 1) + numFails co (a + 1) n

/-- Step of the documents-since-last-successful-commit count along a trace:
one more per document handed to the writer, reset by every successful
commit (checkpoint or final), untouched by anything else. -/
def ascStep (n : Nat) : Event → Nat
  | Event.addDoc _ => n + 1
  | Event.commitOkAt _ => 0
  | Event.finalCommitOk => 0
  | _ => n

/-- Documents handed to the writer since the last successful commit, read
off a trace. -/
def asc (n : Nat) (tr : List Event) : Nat := tr.foldl ascStep n

/-- Checks that at every fileStart event of the trace the
documents-since-last-successful-commit count is zero. -/
def chkFS : Nat → List Event → Bool
  | _, [] => true
  | n, e :: r =>
      (match e with
       | Event.fileStart => n == 0
       | _ => true) && chkFS (ascStep n e) r

def isFileStart : Event → Bool
  | Event.fileStart => true
  | _ => false

def countFS (tr : List Event) : Nat := tr.countP isFileStart

def isFinalCommit : Event → Bool
  | Event.finalCommitOk => true
  | Event.finalCommitFail => true
  | _ => false

def countFinal (tr : List Event) : Nat := tr.countP isFinalCommit

/-! Corpus discovery (src/main.rs lines 80-86). -/

/-- One item yielded while iterating a `glob::glob` pattern: a matching path
or a GlobError (an I/O failure such as an unreadable directory met during
the walk). -/
inductive GlobEntry where
  | path (p : String)
  | ioError
deriving DecidableEq, Repr

/-- The filesystem as find_files observes it through the glob crate:
whether the root location exists, whether it is readable, and the paths
matching the pattern under it. -/
structure Dir where
  rootExists : Bool
  readable : Bool
  found : List String

/-- The iteration of `glob::glob(location/pattern)`, per the glob crate:
the fixed pattern "*.csv" is syntactically valid, so `glob` itself returns
Ok; a nonexistent root yields no entries (it is not an error); an existing
but unreadable root yields a GlobError entry during iteration; otherwise
the matching paths are yielded. -/
def globEntries (d : Dir) : List GlobEntry :=
  if d.rootExists = false then []
  else if d.readable = false then [GlobEntry.ioError]
  else d.found.map GlobEntry.path

/-- The push loop of find_files: `files.push(entry?)` stops at the first
GlobError, which find_files returns as Err. -/
def collectEntries : List GlobEntry → Except Unit (List String)
  | [] => Except.ok []
  | GlobEntry.ioError :: _ => Except.error ()
  | GlobEntry.path p :: rest => (collectEntries rest).map (fun l => p :: l)

/-- find_files (src/main.rs lines 80-86) over the modelled filesystem. -/
def find_files (d : Dir) : Except Unit (List String) :=
  collectEntries (globEntries d)

/-! Query execution (src/main_query_index.rs lines 56-92 and
src/main_index_query.rs lines 53-75). -/

/-- Error kinds of the spec's query contract, plus the outcomes the source
can actually produce. -/
inductive QueryError where
  | queryParseError
  | indexUnavailable
  | invalidLimit
deriving DecidableEq, Repr

/-- Result of a query call: an Ok value, a returned error, or a process
panic (an assertion or unwrap firing). -/
inductive QResult where
  | ok (docs : List Document)
  | err (e : QueryError)
  | panicked (msg : String)
deriving DecidableEq, Repr

/-- The external engine as query_index consumes it: whether the reader can
be acquired, whether the query text parses, the ranked document addresses a
search returns for a given limit, and document retrieval by address. -/
structure Engine where
  reader_ok : Bool
  parse_ok : String → Bool
  top_docs : Nat → List Nat
  doc_at : Nat → Document

/-- The default-field list query_index hands to `QueryParser::new`
(src/main_query_index.rs lines 66-74): the unwrapped handles of title, body
and state, in that order; none models a panic of one of the unwraps. -/
def query_default_fields (schema : Schema) : Option (List Nat) := do
  let t ← schema.get_field "title"
  let b ← schema.get_field "body"
  let st ← schema.get_field "state"
  pure [t, b, st]

/-- The default-field list the second variant hands to
`QueryParser::for_index` (src/main_index_query.rs lines 61-65): likewise
title, body, state. -/
def for_index_default_fields (schema : Schema) : Option (List Nat) := do
  let t ← schema.get_field "title"
  let b ← schema.get_field "body"
  let st ← schema.get_field "state"
  pure [t, b, st]

/-- query_index (src/main_query_index.rs lines 56-92).  The control flow in
source order: acquire the reader (`try_into()?`), unwrap the three field
handles, build the parser, parse the query (`parse_query(query)?`), then
`searcher.search(&query, &TopDocs::with_limit(limit))?` and fetch each hit.
No validation of `limit` (a usize) is performed anywhere;
`TopDocs::with_limit` asserts a strictly positive limit (tantivy's
documented behavior), so a zero limit panics inside the engine. -/
def query_index (e : Engine) (schema : Schema) (q : String) (limit : Nat) :
    QResult :=
  if e.reader_ok = false then QResult.err QueryError.indexUnavailable
  else
    match query_default_fields schema with
    | none => QResult.panicked "unwrap of a missing schema field"
    | some _fields =>
        if e.parse_ok q = false then QResult.err QueryError.queryParseError
        else if limit = 0 then
          QResult.panicked "Limit must be strictly greater than 0."
        else QResult.ok ((e.top_docs limit).map e.doc_at)

/-- A trivial concrete engine used for closed instances. -/
def engine0 : Engine :=
  { reader_ok := true, parse_ok := fun _ => true,
    top_docs := fun _ => [], doc_at := fun _ => [] }

/-- Whether a query result is the given returned error. -/
def resultIsErr (r : QResult) (er : QueryError) : Bool :=
  match r with
  | QResult.err e => e == er
  | _ => false

/-- Whether a query result is a successful return. -/
def resultIsOk : QResult → Bool
  | QResult.ok _ => true
  | _ => false

/-- Whether a discovery result is an error. -/
def discoveryIsError : Except Unit (List String) → Bool
  | Except.error _ => true
  | _ => false

/-! Helper lemmas. -/

/-- Under create_schema every lookup of the row mapper succeeds and the
document it builds is fully determined: one value per field, sources at
offsets 1, 2, 3, 5, "NA" for absent cells. -/
lemma mapRow_cs (record : List String) :
    mapRow create_schema record = some (docOf record) := rfl

lemma stepRow_panicked (co : Nat → Bool) (s : IngestState) (r : RawRow)
    (h : s.panicked = false) :
    (stepRow co create_schema s r).panicked = false := by
  cases r with
  | malformed => simpa [stepRow]
  | ok cells =>
      simp only [stepRow, mapRow_cs]
      split <;> (try split) <;> simpa

lemma asc_append (n : Nat) (t1 t2 : List Event) :
    asc n (t1 ++ t2) = asc (asc n t1) t2 := by
  simp [asc, List.foldl_append]

lemma chkFS_append (t1 t2 : List Event) :
    ∀ n, chkFS n (t1 ++ t2) = (chkFS n t1 && chkFS (asc n t1) t2) := by
  induction t1 with
  | nil => intro n; simp [chkFS, asc]
  | cons e r ih =>
      intro n
      have h1 : asc n (e :: r) = asc (ascStep n e) r := by simp [asc]
      simp only [List.cons_append, chkFS, List.append_eq, ih, h1, Bool.and_assoc]

lemma stepRow_counts (co : Nat → Bool) (s : IngestState) (r : RawRow) :
    countFS (stepRow co create_schema s r).trace = countFS s.trace ∧
    countFinal (stepRow co create_schema s r).trace = countFinal s.trace ∧
    s.committed ≤ (stepRow co create_schema s r).committed := by
  cases r with
  | malformed =>
      simp [stepRow, countFS, countFinal, List.countP_append, isFileStart,
        isFinalCommit]
  | ok cells =>
      simp only [stepRow, mapRow_cs]
      split <;> (try split) <;>
        simp [countFS, countFinal, List.countP_append, isFileStart,
          isFinalCommit]

lemma processRows_basic (co : Nat → Bool) (rows : List RawRow) :
    ∀ s : IngestState, s.panicked = false →
      (processRows co create_schema s rows).panicked = false ∧
      countFS (processRows co create_schema s rows).trace = countFS s.trace ∧
      countFinal (processRows co create_schema s rows).trace = countFinal s.trace ∧
      s.committed ≤ (processRows co create_schema s rows).committed := by
  induction rows with
  | nil => intro s hp; simp [processRows, hp]
  | cons r rest ih =>
      intro s hp
      have hstep := stepRow_counts co s r
      have hp' := stepRow_panicked co s r hp
      obtain ⟨h1, h2, h3, h4⟩ := ih (stepRow co create_schema s r) hp'
      have hred : processRows co create_schema s (r :: rest) =
          processRows co create_schema (stepRow co create_schema s r) rest := by
        simp [processRows, hp]
      rw [hred]
      exact ⟨h1, h2.trans hstep.1, h3.trans hstep.2.1, le_trans hstep.2.2 h4⟩

lemma asc_nil (n : Nat) : asc n [] = n := rfl

lemma asc_singleton (n : Nat) (e : Event) : asc n [e] = ascStep n e := by
  simp [asc]

lemma asc_cons (n : Nat) (e : Event) (t : List Event) :
    asc n (e :: t) = asc (ascStep n e) t := by
  simp [asc]

lemma stepRow_pending (co : Nat → Bool) (s : IngestState) (r : RawRow)
    (h : s.pending = asc 0 s.trace) (hc : chkFS 0 s.trace = true) :
    (stepRow co create_schema s r).pending =
      asc 0 (stepRow co create_schema s r).trace ∧
    chkFS 0 (stepRow co create_schema s r).trace = true := by
  cases r with
  | malformed =>
      simp [stepRow, asc_append, asc_singleton, asc_nil, chkFS_append, hc, h,
        ascStep, chkFS]
  | ok cells =>
      simp only [stepRow, mapRow_cs]
      split <;> (try split) <;>
        simp [asc_append, asc_singleton, asc_cons, asc_nil, chkFS_append, hc, h, ascStep, chkFS]

lemma processRows_pending (co : Nat → Bool) (rows : List RawRow) :
    ∀ s : IngestState, s.pending = asc 0 s.trace → chkFS 0 s.trace = true →
      (processRows co create_schema s rows).pending =
        asc 0 (processRows co create_schema s rows).trace ∧
      chkFS 0 (processRows co create_schema s rows).trace = true := by
  induction rows with
  | nil => intro s h hc; simpa [processRows] using ⟨h, hc⟩
  | cons r rest ih =>
      intro s h hc
      by_cases hp : s.panicked = true
      · simpa [processRows, hp] using ⟨h, hc⟩
      · simp only [Bool.not_eq_true] at hp
        obtain ⟨h', hc'⟩ := stepRow_pending co s r h hc
        simpa [processRows, hp] using ih (stepRow co create_schema s r) h' hc'

lemma checkpointCommits_append (t1 t2 : List Event) :
    checkpointCommits (t1 ++ t2) = checkpointCommits t1 ++ checkpointCommits t2 := by
  simp [checkpointCommits]

/-- Explicit form of the three outcomes of a parsed row under
create_schema. -/
lemma stepRow_ok_eq (co : Nat → Bool) (s : IngestState) (cells : List String) :
    stepRow co create_schema s (RawRow.ok cells) =
      if (s.counter + 1) % 1000 = 0 then
        if co s.attempts then
          { counter := s.counter + 1,
            exception_counter := s.exception_counter,
            pending := 0, committed := s.committed + (s.pending + 1),
            attempts := s.attempts + 1, panicked := s.panicked,
            trace := s.trace ++ [Event.addDoc (docOf cells),
                                 Event.commitOkAt (s.counter + 1)] }
        else
          { counter := s.counter + 1,
            exception_counter := s.exception_counter + 1,
            pending := s.pending + 1, committed := s.committed,
            attempts := s.attempts + 1, panicked := s.panicked,
            trace := s.trace ++ [Event.addDoc (docOf cells),
                                 Event.commitFailAt (s.counter + 1)] }
      else
        { counter := s.counter + 1,
          exception_counter := s.exception_counter,
          pending := s.pending + 1, committed := s.committed,
          attempts := s.attempts, panicked := s.panicked,
          trace := s.trace ++ [Event.addDoc (docOf cells)] } := by
  simp only [stepRow, mapRow_cs]
  split <;> (try split) <;> simp

/-- The full characterization of the record loop from any state consistent
with its own attempt numbering: every parsed row is counted, commits are
attempted exactly at the positive multiples of 1000 of the counter with the
attempts numbered consecutively, and the exception counter accumulates one
per malformed row plus one per failed checkpoint commit. -/
lemma processRows_spec (co : Nat → Bool) (rows : List RawRow) :
    ∀ s : IngestState, s.panicked = false → s.counter / 1000 = s.attempts →
      (processRows co create_schema s rows).counter = s.counter + okCount rows ∧
      (processRows co create_schema s rows).counter / 1000 =
        (processRows co create_schema s rows).attempts ∧
      s.attempts ≤ (processRows co create_schema s rows).attempts ∧
      checkpointCommits (processRows co create_schema s rows).trace =
        checkpointCommits s.trace ++
          commitEvs co s.attempts
            ((processRows co create_schema s rows).attempts - s.attempts) ∧
      (processRows co create_schema s rows).exception_counter =
        s.exception_counter + badCount rows +
          numFails co s.attempts
            ((processRows co create_schema s rows).attempts - s.attempts) := by
  induction rows with
  | nil =>
      intro s hp hdiv
      simp [processRows, okCount, badCount, commitEvs, numFails, hdiv]
  | cons r rest ih =>
      intro s hp hdiv
      have hred : processRows co create_schema s (r :: rest) =
          processRows co create_schema (stepRow co create_schema s r) rest := by
        simp [processRows, hp]
      rw [hred]
      cases r with
      | malformed =>
          have hstep : stepRow co create_schema s RawRow.malformed =
              { s with exception_counter := s.exception_counter + 1,
                       trace := s.trace ++ [Event.readError] } := rfl
          rw [hstep]
          obtain ⟨c1, c2, c3, c4, c5⟩ :=
            ih { s with exception_counter := s.exception_counter + 1,
                        trace := s.trace ++ [Event.readError] } hp hdiv
          refine ⟨c1, c2, c3, ?_, ?_⟩
          · rw [c4]
            simp [checkpointCommits_append, checkpointCommits,
              isCheckpointCommit]
          · rw [c5]
            simp only [badCount]
            omega
      | ok cells =>
          rw [stepRow_ok_eq]
          by_cases hmod : (s.counter + 1) % 1000 = 0
          · by_cases hco : co s.attempts = true
            · simp only [hmod, hco, if_true]
              set s2 : IngestState :=
                { counter := s.counter + 1,
                  exception_counter := s.exception_counter,
                  pending := 0, committed := s.committed + (s.pending + 1),
                  attempts := s.attempts + 1, panicked := s.panicked,
                  trace := s.trace ++ [Event.addDoc (docOf cells),
                                       Event.commitOkAt (s.counter + 1)] }
                with hs2
              have hdiv2 : s2.counter / 1000 = s2.attempts := by
                simp only [hs2]
                omega
              obtain ⟨c1, c2, c3, c4, c5⟩ := ih s2 (by simpa [hs2] using hp) hdiv2
              have hcnt : s.counter + 1 = 1000 * (s.attempts + 1) := by omega
              have hA : s.attempts + 1 ≤
                  (processRows co create_schema s2 rest).attempts := by
                simpa [hs2] using c3
              have hn : (processRows co create_schema s2 rest).attempts -
                  s.attempts =
                  ((processRows co create_schema s2 rest).attempts -
                    (s.attempts + 1)) + 1 := by omega
              refine ⟨?_, c2, ?_, ?_, ?_⟩
              · rw [c1]; simp only [hs2, okCount]; omega
              · omega
              · rw [c4, hn]
                simp only [commitEvs, hco, if_true, hs2,
                  checkpointCommits_append, checkpointCommits,
                  isCheckpointCommit]
                simp [checkpointCommits, isCheckpointCommit, hcnt]
              · rw [c5, hn]
                simp only [numFails, hco, if_true, hs2, okCount, badCount]
                omega
            · simp only [Bool.not_eq_true] at hco
              simp only [hmod, hco, if_true, Bool.false_eq_true, if_false]
              set s3 : IngestState :=
                { counter := s.counter + 1,
                  exception_counter := s.exception_counter + 1,
                  pending := s.pending + 1, committed := s.committed,
                  attempts := s.attempts + 1, panicked := s.panicked,
                  trace := s.trace ++ [Event.addDoc (docOf cells),
                                       Event.commitFailAt (s.counter + 1)] }
                with hs3
              have hdiv3 : s3.counter / 1000 = s3.attempts := by
                simp only [hs3]
                omega
              obtain ⟨c1, c2, c3, c4, c5⟩ := ih s3 (by simpa [hs3] using hp) hdiv3
              have hcnt : s.counter + 1 = 1000 * (s.attempts + 1) := by omega
              have hA : s.attempts + 1 ≤
                  (processRows co create_schema s3 rest).attempts := by
                simpa [hs3] using c3
              have hn : (processRows co create_schema s3 rest).attempts -
                  s.attempts =
                  ((processRows co create_schema s3 rest).attempts -
                    (s.attempts + 1)) + 1 := by omega
              refine ⟨?_, c2, ?_, ?_, ?_⟩
              · rw [c1]; simp only [hs3, okCount]; omega
              · omega
              · rw [c4, hn]
                simp only [commitEvs, hco, Bool.false_eq_true, if_false, hs3,
                  checkpointCommits_append, checkpointCommits,
                  isCheckpointCommit]
                simp [checkpointCommits, isCheckpointCommit, hcnt]
              · rw [c5, hn]
                simp only [numFails, hco, Bool.false_eq_true, if_false, hs3,
                  okCount, badCount]
                omega
          · simp only [hmod, if_false]
            set s1 : IngestState :=
              { counter := s.counter + 1,
                exception_counter := s.exception_counter,
                pending := s.pending + 1, committed := s.committed,
                attempts := s.attempts, panicked := s.panicked,
                trace := s.trace ++ [Event.addDoc (docOf cells)] }
              with hs1
            have hdiv1 : s1.counter / 1000 = s1.attempts := by
              simp only [hs1]
              omega
            obtain ⟨c1, c2, c3, c4, c5⟩ := ih s1 (by simpa [hs1] using hp) hdiv1
            refine ⟨?_, c2, ?_, ?_, ?_⟩
            · rw [c1]; simp only [hs1, okCount]; omega
            · simpa [hs1] using c3
            · rw [c4]
              simp [hs1, checkpointCommits_append, checkpointCommits,
                isCheckpointCommit]
            · rw [c5]
              simp only [hs1, okCount, badCount]

lemma processFile_basic (co : Nat → Bool) (s : IngestState) (f : FileInput)
    (hp : s.panicked = false) :
    (processFile co create_schema s f).1.panicked = false ∧
    s.committed ≤ (processFile co create_schema s f).1.committed ∧
    countFS (processFile co create_schema s f).1.trace =
      countFS s.trace + csvCount [f] ∧
    (∀ rows, f = FileInput.csv rows →
      countFinal (processFile co create_schema s f).1.trace =
        countFinal s.trace + 1) ∧
    ((∀ k, co k = true) → (processFile co create_schema s f).2 = true) := by
  cases f with
  | openFail =>
      simp [processFile, hp, countFS, countFinal, List.countP_append,
        isFileStart, isFinalCommit, csvCount]
  | csv rows =>
      have hps : (startFile s).panicked = false := by simpa [startFile] using hp
      obtain ⟨h1, h2, h3, h4⟩ := processRows_basic co rows (startFile s) hps
      set s1 := processRows co create_schema (startFile s) rows with hs1
      have hsf0 : countFS (startFile s).trace = countFS s.trace + 1 := by
        simp [startFile, countFS, List.countP_append, isFileStart]
      have hsf1 : countFinal (startFile s).trace = countFinal s.trace := by
        simp [startFile, countFinal, List.countP_append, isFinalCommit]
      have hsc : (startFile s).committed = s.committed := by simp [startFile]
      rw [hsc] at h4
      simp only [countFS, countFinal] at h2 h3 hsf0 hsf1
      by_cases hco : co s1.attempts = true
      · have hpf : processFile co create_schema s (FileInput.csv rows) =
            ({ s1 with pending := 0,
                       committed := s1.committed + s1.pending,
                       attempts := s1.attempts + 1,
                       trace := (s1.trace ++ [Event.finalCommitOk]) ++
                         [Event.report s1.counter s1.exception_counter
                           (exc_percentage s1.exception_counter s1.counter)] },
             true) := by
          simp [processFile, ← hs1, h1, finalCommit, hco]
        rw [hpf]
        refine ⟨h1, by simpa using Nat.le_add_right_of_le h4, ?_, ?_, fun _ => rfl⟩
        · simp only [countFS, csvCount, List.countP_append]
          simp [isFileStart, isFinalCommit]
          omega
        · intro rows2 _
          simp only [countFinal, List.countP_append]
          simp [isFinalCommit]
          omega
      · have hpf : processFile co create_schema s (FileInput.csv rows) =
            ({ s1 with attempts := s1.attempts + 1,
                       trace := s1.trace ++ [Event.finalCommitFail] },
             false) := by
          simp [processFile, ← hs1, h1, finalCommit, hco]
        rw [hpf]
        refine ⟨h1, h4, ?_, ?_, ?_⟩
        · simp only [countFS, csvCount, List.countP_append]
          simp [isFileStart, isFinalCommit]
          omega
        · intro rows2 _
          simp only [countFinal, List.countP_append]
          simp [isFinalCommit]
          omega
        · intro hall
          exact absurd (hall _) hco

lemma processFile_pending (co : Nat → Bool) (s : IngestState) (f : FileInput)
    (hp : s.panicked = false) (hpend : s.pending = asc 0 s.trace)
    (hchk : chkFS 0 s.trace = true) (hz : s.pending = 0) :
    (processFile co create_schema s f).1.pending =
      asc 0 (processFile co create_schema s f).1.trace ∧
    chkFS 0 (processFile co create_schema s f).1.trace = true ∧
    ((processFile co create_schema s f).2 = true →
      (processFile co create_schema s f).1.pending = 0) := by
  cases f with
  | openFail =>
      refine ⟨?_, ?_, fun _ => by simpa [processFile] using hz⟩
      · simpa [processFile, asc_append, asc_singleton, ascStep] using hpend
      · simp [processFile, chkFS_append, hchk, chkFS]
  | csv rows =>
      have hps : (startFile s).panicked = false := by simpa [startFile] using hp
      have hasc0 : asc 0 s.trace = 0 := by omega
      have hpend0 : (startFile s).pending = asc 0 (startFile s).trace := by
        simp [startFile, asc_append, asc_singleton, ascStep, hasc0, hz]
      have hchk0 : chkFS 0 (startFile s).trace = true := by
        simp [startFile, chkFS_append, hchk, chkFS, hasc0]
      obtain ⟨h1, _, _, _⟩ := processRows_basic co rows (startFile s) hps
      obtain ⟨hA, hB⟩ := processRows_pending co rows (startFile s) hpend0 hchk0
      set s1 := processRows co create_schema (startFile s) rows with hs1
      by_cases hco : co s1.attempts = true
      · have hpf : processFile co create_schema s (FileInput.csv rows) =
            ({ s1 with pending := 0,
                       committed := s1.committed + s1.pending,
                       attempts := s1.attempts + 1,
                       trace := (s1.trace ++ [Event.finalCommitOk]) ++
                         [Event.report s1.counter s1.exception_counter
                           (exc_percentage s1.exception_counter s1.counter)] },
             true) := by
          simp [processFile, ← hs1, h1, finalCommit, hco]
        rw [hpf]
        refine ⟨?_, ?_, fun _ => rfl⟩
        · simp [asc_append, asc_cons, asc_singleton, asc_nil, ascStep]
        · simp [chkFS_append, hB, chkFS]
      · have hpf : processFile co create_schema s (FileInput.csv rows) =
            ({ s1 with attempts := s1.attempts + 1,
                       trace := s1.trace ++ [Event.finalCommitFail] },
             false) := by
          simp [processFile, ← hs1, h1, finalCommit, hco]
        rw [hpf]
        refine ⟨?_, ?_, fun hfalse => by simp at hfalse⟩
        · simpa [asc_append, asc_singleton, ascStep] using hA
        · simp [chkFS_append, hB, chkFS]

lemma runFiles_basic (co : Nat → Bool) (files : List FileInput) :
    ∀ (s : IngestState) (b : Bool), s.panicked = false →
      (runFiles co create_schema (s, b) files).1.panicked = false ∧
      s.committed ≤ (runFiles co create_schema (s, b) files).1.committed ∧
      ((∀ k, co k = true) → b = true →
        (runFiles co create_schema (s, b) files).2 = true ∧
        countFS (runFiles co create_schema (s, b) files).1.trace =
          countFS s.trace + csvCount files) := by
  induction files with
  | nil =>
      intro s b hp
      exact ⟨hp, le_refl _, fun _ _ => ⟨by simpa [runFiles], by simp [runFiles, csvCount]⟩⟩
  | cons f rest ih =>
      intro s b hp
      cases b with
      | false =>
          refine ⟨hp, le_refl _, fun _ hb => by simp at hb⟩
      | true =>
          have hrun : runFiles co create_schema (s, true) (f :: rest) =
              runFiles co create_schema (processFile co create_schema s f) rest := by
            simp [runFiles]
          obtain ⟨p1, p2, p3, _, p5⟩ := processFile_basic co s f hp
          obtain ⟨q1, q2, q3⟩ :=
            ih (processFile co create_schema s f).1
               (processFile co create_schema s f).2 p1
          rw [hrun]
          refine ⟨by simpa using q1, ?_, ?_⟩
          · exact le_trans p2 (by simpa using q2)
          · intro hall _
            obtain ⟨r1, r2⟩ := q3 hall (p5 hall)
            refine ⟨by simpa using r1, ?_⟩
            have := r2
            have hcsv : csvCount [f] + csvCount rest = csvCount (f :: rest) := by
              cases f
              · simp [csvCount]
              · simp [csvCount]
                omega
            simp only [Prod.mk.eta] at this
            omega

lemma runFiles_pending (co : Nat → Bool) (files : List FileInput) :
    ∀ (s : IngestState) (b : Bool), s.panicked = false →
      s.pending = asc 0 s.trace → chkFS 0 s.trace = true →
      (b = true → s.pending = 0) →
      (runFiles co create_schema (s, b) files).1.pending =
        asc 0 (runFiles co create_schema (s, b) files).1.trace ∧
      chkFS 0 (runFiles co create_schema (s, b) files).1.trace = true := by
  induction files with
  | nil => intro s b _ hpend hchk _; exact ⟨hpend, hchk⟩
  | cons f rest ih =>
      intro s b hp hpend hchk hz
      cases b with
      | false => simpa [runFiles] using ⟨hpend, hchk⟩
      | true =>
          have hrun : runFiles co create_schema (s, true) (f :: rest) =
              runFiles co create_schema (processFile co create_schema s f) rest := by
            simp [runFiles]
          obtain ⟨p1, _, _, _, _⟩ := processFile_basic co s f hp
          obtain ⟨w1, w2, w3⟩ := processFile_pending co s f hp hpend hchk (hz rfl)
          rw [hrun]
          have := ih (processFile co create_schema s f).1
                     (processFile co create_schema s f).2 p1 w1 w2 w3
          simpa using this

/-! The claim theorems. -/

/-- C1: the claim states that the end-of-file exception percentage equals
100 * exceptionCount / processedCount with an explicit undefined special
case at processedCount = 0.  The code divides unguarded
(src/main.rs line 236): on a file with zero data rows the end-of-file
report carries the silently propagated f32 NaN (0/0), not an explicit
undefined case; for nonzero counts the computed value does match the
claimed formula (shown here at exceptions 1 of 4 processed, 25 percent). -/
theorem C1_unguarded_percentage_nan :
    exc_percentage 0 0 = ExcReport.nan ∧
    (processFile (fun _ => true) create_schema initState
        (FileInput.csv [])).1.trace =
      [Event.fileStart, Event.finalCommitOk, Event.report 0 0 ExcReport.nan] ∧
    exc_percentage 1 4 = ExcReport.percent 25 := by
  refine ⟨rfl, by decide, ?_⟩
  simp [exc_percentage]
  norm_num

/-- C2: under the six-column layout the row mapper always succeeds and
produces exactly one value per schema field (the schema has exactly the
four fields 0..3), reading title, url, body, state from source offsets
1, 2, 3, 5 and substituting "NA" for any absent cell; in particular a row
with fewer columns than required never fails the mapping. -/
theorem C2_map_row_layout (record : List String) :
    mapRow create_schema record =
      some [(0, (record_get record 1).getD "NA"),
            (1, (record_get record 2).getD "NA"),
            (2, (record_get record 3).getD "NA"),
            (3, (record_get record 5).getD "NA")] ∧
    create_schema.fields.length = 4 :=
  ⟨mapRow_cs record, rfl⟩

/-- C3: during ingestion of a file (fresh per-file state), a commit is
invoked exactly when the count of documents added reaches each positive
multiple of 1000: the checkpoint-commit events of the trace are precisely
the attempts 0, ..., okCount/1000 - 1, the a-th happening at counter
1000 * (a + 1); a failed checkpoint commit adds one to the exception
counter (on top of one per malformed row) and processing continues: all
parsed rows are still counted. -/
theorem C3_checkpoint_commits (co : Nat → Bool) (rows : List RawRow) :
    (processRows co create_schema initState rows).counter = okCount rows ∧
    (processRows co create_schema initState rows).attempts =
      okCount rows / 1000 ∧
    checkpointCommits (processRows co create_schema initState rows).trace =
      commitEvs co 0 (okCount rows / 1000) ∧
    (processRows co create_schema initState rows).exception_counter =
      badCount rows + numFails co 0 (okCount rows / 1000) := by
  obtain ⟨c1, c2, c3, c4, c5⟩ := processRows_spec co rows initState rfl rfl
  have hc1 : (processRows co create_schema initState rows).counter =
      okCount rows := by
    rw [c1]; simp [initState]
  have hA : (processRows co create_schema initState rows).attempts =
      okCount rows / 1000 := by
    rw [← c2, hc1]
  refine ⟨hc1, hA, ?_, ?_⟩
  · rw [c4, hA]
    simp [initState, checkpointCommits]
  · rw [c5, hA]
    simp [initState]

/-- C4: every successfully opened file ends with exactly one final-commit
attempt, issued whatever the size of the partial batch (even zero rows);
committed progress never decreases, whatever commits fail (no rollback);
and when every commit succeeds the run completes with the ok flag and one
fileStart per discovered csv file. -/
theorem C4_final_commit_completion (co : Nat → Bool) (files : List FileInput) :
    (∀ (s : IngestState) (rows : List RawRow), s.panicked = false →
       countFinal ((processFile co create_schema s (FileInput.csv rows)).1.trace) =
         countFinal s.trace + 1) ∧
    (∀ (s : IngestState) (f : FileInput), s.panicked = false →
       s.committed ≤ (processFile co create_schema s f).1.committed) ∧
    ((∀ k, co k = true) →
       (index_data co create_schema files).2 = true ∧
       countFS (index_data co create_schema files).1.trace = csvCount files) := by
  refine ⟨?_, ?_, ?_⟩
  · intro s rows hp
    exact (processFile_basic co s (FileInput.csv rows) hp).2.2.2.1 rows rfl
  · intro s f hp
    exact (processFile_basic co s f hp).2.1
  · intro hall
    obtain ⟨_, _, q⟩ := runFiles_basic co files initState true rfl
    obtain ⟨r1, r2⟩ := q hall rfl
    refine ⟨r1, ?_⟩
    rw [index_data, r2]
    simp [initState, countFS]

/-- C4 witness: a run over one empty csv file with all commits succeeding
completes with the ok flag and one processed file. -/
theorem C4_witness :
    countFinal ((processFile (fun _ => true) create_schema initState
      (FileInput.csv [])).1.trace) = countFinal initState.trace + 1 ∧
    initState.committed ≤ (processFile (fun _ => true) create_schema initState
      FileInput.openFail).1.committed ∧
    (index_data (fun _ => true) create_schema [FileInput.csv []]).2 = true := by
  have h := C4_final_commit_completion (fun _ => true) [FileInput.csv []]
  exact ⟨h.1 initState [] rfl, h.2.1 initState FileInput.openFail rfl,
    (h.2.2 (fun _ => rfl)).1⟩

/-- C5: a row that fails to parse increments the exception counter of the
file, logs the error and hands control to the next record: the rest of the
file is processed from the incremented state, and the step never sets the
abort flag. -/
theorem C5_malformed_row_continue (co : Nat → Bool) (s : IngestState)
    (rest : List RawRow) (h : s.panicked = false) :
    stepRow co create_schema s RawRow.malformed =
      { s with exception_counter := s.exception_counter + 1,
               trace := s.trace ++ [Event.readError] } ∧
    (stepRow co create_schema s RawRow.malformed).panicked = false ∧
    processRows co create_schema s (RawRow.malformed :: rest) =
      processRows co create_schema
        { s with exception_counter := s.exception_counter + 1,
                 trace := s.trace ++ [Event.readError] } rest := by
  refine ⟨rfl, by simpa using h, ?_⟩
  have hred : processRows co create_schema s (RawRow.malformed :: rest) =
      processRows co create_schema
        (stepRow co create_schema s RawRow.malformed) rest := by
    simp [processRows, h]
  rw [hred]
  rfl

/-- C5 witness. -/
theorem C5_witness :
    initState.panicked = false ∧
    (stepRow (fun _ => true) create_schema initState
      RawRow.malformed).panicked = false :=
  ⟨rfl, (C5_malformed_row_continue (fun _ => true) initState [] rfl).2.1⟩

/-- C6 counterexample: the claim says a zero (or negative) limit fails with
InvalidLimit as an error result.  query_index performs no limit check: at
limit 0 (with a well-behaved engine and a parsable query) the call does not
return an InvalidLimit error; the zero limit reaches the engine, whose
with_limit assertion panics. -/
theorem C6_counterexample :
    resultIsErr (query_index engine0 create_schema "Amazon" 0)
      QueryError.invalidLimit = false ∧
    query_index engine0 create_schema "Amazon" 0 =
      QResult.panicked "Limit must be strictly greater than 0." := by
  exact ⟨rfl, rfl⟩

/-- C6 amended: the limit is a usize, so a negative value is
unrepresentable; query_index never validates it and never returns an
InvalidLimit error for any engine, schema, query or limit; and a zero
limit never produces a successful result (it panics inside the engine or
fails earlier for other reasons). -/
theorem C6_no_invalid_limit (e : Engine) (schema : Schema) (q : String)
    (limit : Nat) :
    resultIsErr (query_index e schema q limit) QueryError.invalidLimit = false ∧
    resultIsOk (query_index e schema q 0) = false := by
  constructor
  · simp only [query_index]
    split
    · simp [resultIsErr]
    · split
      · simp [resultIsErr]
      · split
        · simp [resultIsErr]
        · split
          · simp [resultIsErr]
          · simp [resultIsErr]
  · simp only [query_index]
    split
    · simp [resultIsOk]
    · split
      · simp [resultIsOk]
      · split
        · simp [resultIsOk]
        · simp [resultIsOk]

/-- C7: both query variants construct the parser against exactly the
searchable subset title, body, state (handles 0, 2, 3 under
create_schema) and against no other field: the url handle (1) is not among
the default fields. -/
theorem C7_query_fields_exact :
    query_default_fields create_schema = some [0, 2, 3] ∧
    for_index_default_fields create_schema = some [0, 2, 3] ∧
    create_schema.get_field "url" = some 1 ∧
    (([0, 2, 3] : List Nat).contains 1) = false := by
  exact ⟨rfl, rfl, rfl, rfl⟩

/-- C8 counterexample: the claim says discovery fails with DiscoveryError
when the root path does not exist.  Through the glob crate a nonexistent
root yields zero entries, so find_files returns Ok with the empty list,
not an error. -/
theorem C8_counterexample :
    find_files { rootExists := false, readable := true, found := [] } =
      Except.ok [] ∧
    discoveryIsError
      (find_files { rootExists := false, readable := true, found := [] }) =
      false := by
  exact ⟨rfl, rfl⟩

/-- C8 amended: discovery returns an error exactly when iteration reports
an I/O failure (an existing but unreadable root); a nonexistent root and a
zero-match root both yield Ok with the empty sequence, and ingestion over
an empty file sequence completes successfully with zero processed rows and
zero committed documents. -/
theorem C8_discovery_behavior (rd : Bool) (ms : List String)
    (co : Nat → Bool) :
    find_files { rootExists := true, readable := false, found := ms } =
      Except.error () ∧
    find_files { rootExists := false, readable := rd, found := ms } =
      Except.ok [] ∧
    find_files { rootExists := true, readable := true, found := [] } =
      Except.ok [] ∧
    index_data co create_schema [] = (initState, true) ∧
    initState.counter = 0 ∧ initState.committed = 0 := by
  exact ⟨rfl, rfl, rfl, rfl, rfl, rfl⟩

/-- C9: along any run the number of documents handed to the writer since
the last successful commit (read off the trace by asc: one per addDoc
event, reset by every successful checkpoint or final commit) coincides
with the pending state, and it is zero at the start of every file
(chkFS checks every fileStart event). -/
theorem C9_checkpoint_counter_lifecycle (co : Nat → Bool)
    (files : List FileInput) :
    (index_data co create_schema files).1.pending =
      asc 0 (index_data co create_schema files).1.trace ∧
    chkFS 0 (index_data co create_schema files).1.trace = true := by
  have h := runFiles_pending co files initState true rfl rfl rfl (fun _ => rfl)
  simpa [index_data] using h

/-- C10: under create_schema the four field lookups of the row mapper all
succeed (title, url, body, state at handles 0, 1, 2, 3), so the unwraps in
index_data never panic and the else branches substituting "NA" for a
missing schema field are unreachable: mapRow is total. -/
theorem C10_field_lookups_never_panic :
    create_schema.get_field "title" = some 0 ∧
    create_schema.get_field "url" = some 1 ∧
    create_schema.get_field "body" = some 2 ∧
    create_schema.get_field "state" = some 3 ∧
    ∀ record : List String, (mapRow create_schema record).isSome = true := by
  refine ⟨rfl, rfl, rfl, rfl, fun record => ?_⟩
  rw [mapRow_cs]
  rfl

end TantivyRust
